import Mathlib

/-!
Verification of the personal-finance-classifier pipeline.

The Python source (`src/utils.py`, `src/classifier.py`) is shallowly embedded:
tables become lists of records, pandas column operations become list
transformations, string cells stay `String`, machine floats for money become
`ℚ` (the program only ever adds/compares amounts, so exact rationals model the
decimal literals it parses), and fallible parses return `Option`.
-/

/-! ## Character and string helpers (Python `in`, `startswith`, `strip`) -/

/-- `isPre n h` : the char list `n` is an initial segment of `h`
(Python `str.startswith` on the underlying character sequences). -/
def isPre : List Char → List Char → Bool
  | [], _ => true
  | _ :: _, [] => false
  | a :: as, b :: bs => a == b && isPre as bs

/-- `hasSub n h` : `n` occurs as a contiguous substring of `h`
(Python `n in h` for strings). -/
def hasSub (n : List Char) : List Char → Bool
  | [] => isPre n []
  | c :: rest => isPre n (c :: rest) || hasSub n rest

/-- String-level wrapper for `hasSub`. -/
def strHasSub (needle hay : String) : Bool :=
  hasSub needle.toList hay.toList

/-- Python whitespace test used by `str.strip`. -/
def isSpaceCh (c : Char) : Bool := c.isWhitespace

/-- `str.strip` on a character list: drop whitespace from both ends. -/
def trimL (cs : List Char) : List Char :=
  ((cs.dropWhile isSpaceCh).reverse.dropWhile isSpaceCh).reverse

/-- Python `str.strip` (kernel-reducible form: core `String.trim` is
iterator-based and does not reduce definitionally). -/
def trimStr (s : String) : String := String.mk (trimL s.data)

/-- Python `str.lower` as a per-character map (what CPython does on ASCII,
and exactly what core `String.toLower` computes). -/
def toLowerStr (s : String) : String := String.mk (s.data.map Char.toLower)

/-- Python `str.upper` as a per-character map. -/
def toUpperStr (s : String) : String := String.mk (s.data.map Char.toUpper)

/-! ## Classifier (`src/classifier.py`)

`CATEGORY_KEYWORDS` is the module-level constant, in declaration order
(Python dicts preserve insertion order, which the spec makes contractual). -/

/-- The apostrophe character, used inside one keyword literal. -/
def apoCh : Char := Char.ofNat 39

def foodKeywords : List String :=
  ["restaurant", "cafe", "coffee", "starbucks", "dunkin", "mcdonald",
   "burger", "pizza", "chipotle", "subway", "taco", "doordash",
   "ubereats", "grubhub", "postmates", "seamless", "delivery",
   "diner", "bistro", "grill", "bar", "pub", "kitchen", "food",
   "dining", "eatery", "panera", "chick-fil-a", "chick fil a", "wendys", "kfc",
   "panda express", "taco bell", "coffee hut", "dairy queen",
   "in n out", "domino", "yogurtland", "coldstone", "ice cream",
   "wingstop", "cajun", "burrito", "snack", "salt and straw",
   "koja kitchen", "purple kow", "yogurt park", "mochiholic",
   "bricks cafe", "sweet spot", "matcha cafe", "ice monster",
   "angry chickz", "campus burgers", "too good to go"]

def groceryKeywords : List String :=
  ["grocery", "supermarket", "whole foods", "trader joe", "trader jo",
   "safeway", "kroger", "walmart", "target", "costco",
   String.mk ("sam".toList ++ [apoCh] ++ "s club".toList), "aldi",
   "publix", "wegmans", "heb", "market", "fresh", "food lion",
   "giant eagle", "stop & shop", "harris teeter", "sprouts",
   "dollar tree", "dollartre"]

def transportKeywords : List String :=
  ["uber", "lyft", "taxi", "cab", "transit", "subway", "metro",
   "bus", "train", "parking", "gas", "fuel", "shell", "exxon",
   "chevron", "bp", "mobil", "citgo", "speedway", "wawa",
   "car wash", "auto", "vehicle", "dmv", "registration", "toll",
   "sokwik"]

def entertainmentKeywords : List String :=
  ["movie", "cinema", "theater", "theatre", "netflix", "hulu",
   "spotify", "apple music", "disney", "hbo",
   "youtube", "twitch", "game", "gaming", "steam", "playstation",
   "xbox", "nintendo", "concert", "ticket", "ticketmaster",
   "stubhub", "sports event", "gym", "fitness", "club", "membership"]

def gamblingKeywords : List String :=
  ["prizepicks", "underdog", "draftkings", "fanduel", "betmgm",
   "caesars", "pointsbet", "bet365", "unibet", "bovada",
   "mybookie", "bet online", "sports bet", "casino", "poker",
   "slots", "lottery", "scratch", "gambling"]

def subscriptionKeywords : List String :=
  ["whop", "patreon", "onlyfans", "substack", "chatgpt", "openai",
   "adobe", "office 365", "icloud", "dropbox", "google one",
   "youtube premium", "spotify premium", "apple one", "microsoft 365",
   "creative cloud", "zoom", "slack", "notion", "canva",
   "grammarly", "medium", "scribd", "prime video", "walter ai",
   "agent eo premium", "worldfinancialgroup", "amazon prime",
   "apple.com bill", "apple com bill", "apple bill"]

def transferKeywords : List String :=
  ["apple cash", "apple pay balance", "venmo", "zelle", "paypal",
   "cash app", "google pay", "facebook pay", "transfer to",
   "transfer from", "pmnt sent", "pmnt received", "p2p transfer",
   "peer to peer", "balance add", "balance transfer", "pc transfer",
   "ppd", "cashout", "direct pay", "direct deposit"]

def shoppingKeywords : List String :=
  ["amazon", "ebay", "etsy", "shop", "store", "mall", "retail",
   "best buy", "apple store", "nike", "adidas", "macy", "nordstrom",
   "gap", "zara", "h&m", "forever 21", "old navy", "tj maxx",
   "marshalls", "ross", "kohls", "jcpenney", "sephora", "ulta",
   "home depot", "lowes", "ikea", "furniture", "clothing", "apparel",
   "cscsw", "temu", "shein", "wish", "aliexpress", "wayfair",
   "fashionnova", "tiktok shop", "shop miss a"]

def billsKeywords : List String :=
  ["electric", "electricity", "power", "gas company", "water",
   "internet", "cable", "phone", "mobile", "verizon", "at&t",
   "t-mobile", "sprint", "comcast", "xfinity", "spectrum",
   "utility", "bill payment", "insurance", "rent", "mortgage",
   "loan", "credit card payment", "bank fee"]

def healthKeywords : List String :=
  ["pharmacy", "cvs", "walgreens", "rite aid", "medical", "hospital",
   "doctor", "clinic", "health", "dental", "dentist", "vision",
   "optometry", "prescription", "medicine", "wellness", "therapy",
   "counseling", "urgent care", "emergency", "lab", "test"]

def incomeKeywords : List String :=
  ["salary", "payroll", "deposit", "direct deposit", "payment received",
   "refund", "reimbursement", "bonus", "dividend",
   "interest", "cashback", "reward", "credit via trust"]

/-- `CATEGORY_KEYWORDS` of `src/classifier.py`, as an ordered association
list (declaration order = Python dict insertion order). -/
def CATEGORY_KEYWORDS : List (String × List String) :=
  [("Food & Dining", foodKeywords),
   ("Groceries", groceryKeywords),
   ("Transportation", transportKeywords),
   ("Entertainment", entertainmentKeywords),
   ("Gambling/Sports Betting", gamblingKeywords),
   ("Subscriptions", subscriptionKeywords),
   ("Transfers", transferKeywords),
   ("Shopping", shoppingKeywords),
   ("Bills & Utilities", billsKeywords),
   ("Health", healthKeywords),
   ("Income", incomeKeywords)]

/-- Score of one category: the inner loop of `RuleBasedClassifier.classify` —
add `len(keyword)` once for each keyword occurring in the lower-cased
description. -/
def scoreOf (descLower : String) (kws : List String) : Nat :=
  kws.foldl (fun s k => if strHasSub (toLowerStr k) descLower then s + k.length else s) 0

/-- The per-category score list built by `classify`
(`category_scores` dict, in insertion order). -/
def scoresOf (descLower : String) : List (String × Nat) :=
  CATEGORY_KEYWORDS.map (fun ck => (ck.1, scoreOf descLower ck.2))

/-- Python `max(category_scores, key=category_scores.get)` over a nonempty
iteration `x :: xs`: scan left to right, replace the current best only on a
strictly larger score, so the first maximal entry wins. -/
def pickMax (x : String × Nat) (xs : List (String × Nat)) : String × Nat :=
  xs.foldl (fun b y => if b.2 < y.2 then y else b) x

/-- The tail of `classify`: best-scoring category if its score is positive,
else the `"Other"` default (empty score table also falls through to
`"Other"`, mirroring the `if category_scores:` guard). -/
def bestOf (scores : List (String × Nat)) : String :=
  match scores with
  | [] => "Other"
  | x :: xs =>
    let b := pickMax x xs
    if 0 < b.2 then b.1 else "Other"

/-- `RuleBasedClassifier.classify` of `src/classifier.py`. -/
def classify (description : String) (amount : ℚ) : String :=
  if 0 < amount then "Income"
  else bestOf (scoresOf (toLowerStr description))

/-- `RuleBasedClassifier.classify_batch`: Python `zip` truncates to the
shorter list. -/
def classify_batch (descriptions : List String) (amounts : List ℚ) : List String :=
  (descriptions.zip amounts).map (fun p => classify p.1 p.2)

/-- The claim's selection rule, stated in the spec's own words: compute the
maximum score over the table and return the first category in declaration
order achieving it, or `"Other"` when the maximum is `0`. Compared against
the embedded `bestOf`. -/
def claimedBestOf (scores : List (String × Nat)) : String :=
  let m := (scores.map Prod.snd).foldl Nat.max 0
  if m = 0 then "Other"
  else
    match scores.find? (fun p => p.2 == m) with
    | some p => p.1
    | none => "Other"

/-- The claim's classification rule for non-positive amounts, in the spec's
words. Compared against the embedded `classify`. -/
def claimedClassifyNeg (description : String) : String :=
  claimedBestOf (scoresOf (toLowerStr description))

/-! ## Analysis of the Python `max` over the score table -/

/-- Maximum of `n` and the scores in `xs` (running maximum of the dict
values, seeded at `n`). -/
def maxSnd (n : Nat) (xs : List (String × Nat)) : Nat :=
  xs.foldl (fun a y => Nat.max a y.2) n

theorem maxSnd_cons (n : Nat) (y : String × Nat) (ys : List (String × Nat)) :
    maxSnd n (y :: ys) = maxSnd (Nat.max n y.2) ys := rfl

theorem le_maxSnd (n : Nat) (xs : List (String × Nat)) : n ≤ maxSnd n xs := by
  induction xs generalizing n with
  | nil => exact Nat.le_refl n
  | cons y ys ih =>
    rw [maxSnd_cons]
    exact Nat.le_trans (Nat.le_max_left n y.2) (ih (Nat.max n y.2))

theorem maxSnd_eq_foldl_map (n : Nat) (xs : List (String × Nat)) :
    maxSnd n xs = (xs.map Prod.snd).foldl Nat.max n := by
  induction xs generalizing n with
  | nil => rfl
  | cons y ys ih => rw [maxSnd_cons, List.map_cons, List.foldl_cons, ih]

theorem pickMax_cons (x y : String × Nat) (xs : List (String × Nat)) :
    pickMax x (y :: xs) = pickMax (if x.2 < y.2 then y else x) xs := rfl

/-- The running best of the scan has the maximal score. -/
theorem pickMax_snd (x : String × Nat) (xs : List (String × Nat)) :
    (pickMax x xs).2 = maxSnd x.2 xs := by
  induction xs generalizing x with
  | nil => rfl
  | cons y ys ih =>
    rw [pickMax_cons, maxSnd_cons, ih]
    congr 1
    by_cases h : x.2 < y.2
    · rw [if_pos h]
      exact (Nat.max_eq_right (Nat.le_of_lt h)).symm
    · rw [if_neg h]
      exact (Nat.max_eq_left (Nat.le_of_not_lt h)).symm

/-- Python `max` with strict-greater replacement returns the first entry of
the scan achieving the maximal score: searching for the best score from the
left finds exactly the scan's result. -/
theorem pickMax_find (x : String × Nat) (xs : List (String × Nat)) :
    (x :: xs).find? (fun p => p.2 == (pickMax x xs).2) = some (pickMax x xs) := by
  induction xs generalizing x with
  | nil => exact List.find?_cons_of_pos _ (by simp [pickMax])
  | cons y ys ih =>
    rw [pickMax_cons]
    by_cases h : x.2 < y.2
    · rw [if_pos h]
      have hle : y.2 ≤ (pickMax y ys).2 := by
        rw [pickMax_snd]
        exact le_maxSnd _ _
      have hx : ¬ ((fun p => p.2 == (pickMax y ys).2) x = true) := by
        simp only [beq_iff_eq]
        omega
      rw [@List.find?_cons_of_neg _ (fun p => p.2 == (pickMax y ys).2) x (y :: ys) hx]
      exact ih y
    · rw [if_neg h]
      have hyx : y.2 ≤ x.2 := Nat.le_of_not_lt h
      have hxle : x.2 ≤ (pickMax x ys).2 := by
        rw [pickMax_snd]
        exact le_maxSnd _ _
      by_cases hx : x.2 = (pickMax x ys).2
      · have hhead : (fun p => p.2 == (pickMax x ys).2) x = true := by
          simp [hx]
        have hfromih := ih x
        rw [@List.find?_cons_of_pos _ (fun p => p.2 == (pickMax x ys).2) x ys hhead]
          at hfromih
        rw [@List.find?_cons_of_pos _ (fun p => p.2 == (pickMax x ys).2) x (y :: ys) hhead]
        exact hfromih
      · have hxf : ¬ ((fun p => p.2 == (pickMax x ys).2) x = true) := by
          simp only [beq_iff_eq]
          exact hx
        have hyf : ¬ ((fun p => p.2 == (pickMax x ys).2) y = true) := by
          simp only [beq_iff_eq]
          omega
        have hfromih := ih x
        rw [@List.find?_cons_of_neg _ (fun p => p.2 == (pickMax x ys).2) x ys hxf]
          at hfromih
        rw [@List.find?_cons_of_neg _ (fun p => p.2 == (pickMax x ys).2) x (y :: ys) hxf,
          @List.find?_cons_of_neg _ (fun p => p.2 == (pickMax x ys).2) y ys hyf]
        exact hfromih

/-- The scan-based selection of `classify` coincides with the spec's
"first category in declaration order achieving the maximum score,
`Other` when that maximum is zero". -/
theorem bestOf_eq_claimedBestOf (scores : List (String × Nat)) :
    bestOf scores = claimedBestOf scores := by
  cases scores with
  | nil => rfl
  | cons x xs =>
    have hm : (List.map Prod.snd (x :: xs)).foldl Nat.max 0 = (pickMax x xs).2 := by
      rw [List.map_cons, List.foldl_cons, show Nat.max 0 x.2 = x.2 from Nat.max_eq_right (Nat.zero_le _),
        pickMax_snd, maxSnd_eq_foldl_map]
    rw [bestOf, claimedBestOf]
    simp only [hm]
    by_cases h0 : (pickMax x xs).2 = 0
    · rw [if_pos h0, if_neg (by omega)]
    · rw [if_neg h0, if_pos (by omega), pickMax_find]

/-! ## Classifier claims -/

/-- C4: for every description and every amount strictly greater than zero,
`classify` returns `"Income"`, regardless of the description content. -/
theorem classify_positive_income (d : String) (a : ℚ) (h : 0 < a) :
    classify d a = "Income" := by
  simp [classify, h]

theorem classify_positive_income_witness :
    (0 : ℚ) < 5 ∧ classify "rent netflix walmart uber casino" 5 = "Income" :=
  ⟨by norm_num, classify_positive_income _ _ (by norm_num)⟩

/-- C5: for every description and amount ≤ 0 (including zero), `classify`
lower-cases the description, scores each category as the sum of keyword
lengths over keywords occurring as substrings (each counted at most once),
and returns the first category in declaration order achieving the maximum
score, or `"Other"` when that maximum is 0; in particular
`classify "" (-5) = "Other"`. -/
theorem classify_nonpositive_keyword_scoring (d : String) (a : ℚ) (h : a ≤ 0) :
    classify d a = claimedClassifyNeg d ∧ classify "" (-5 : ℚ) = "Other" := by
  constructor
  · have hna : ¬ (0 < a) := not_lt.mpr h
    simp only [classify, if_neg hna, claimedClassifyNeg]
    exact bestOf_eq_claimedBestOf _
  · decide

theorem classify_nonpositive_keyword_scoring_witness :
    (-5 : ℚ) ≤ 0 ∧
      (classify "starbucks coffee run" (-5) = claimedClassifyNeg "starbucks coffee run" ∧
        classify "" (-5 : ℚ) = "Other") :=
  ⟨by norm_num, classify_nonpositive_keyword_scoring "starbucks coffee run" (-5) (by norm_num)⟩

/-- C10: `classify_batch` returns a list of length `min |descriptions| |amounts|`
whose i-th element is `classify descriptions[i] amounts[i]`; surplus elements
of the longer input are ignored. -/
theorem classify_batch_zip_spec (ds : List String) (as : List ℚ) :
    (classify_batch ds as).length = min ds.length as.length ∧
    ∀ (i : Nat) (d : String) (a : ℚ), ds[i]? = some d → as[i]? = some a →
      (classify_batch ds as)[i]? = some (classify d a) := by
  constructor
  · simp [classify_batch]
  · intro i d a hd ha
    have hz : (ds.zip as)[i]? = some (d, a) :=
      List.getElem?_zip_eq_some.mpr ⟨hd, ha⟩
    simp [classify_batch, List.getElem?_map, hz]

theorem classify_batch_zip_spec_witness :
    (["salary deposit", "uber trip"] : List String)[0]? = some "salary deposit" ∧
    ([(-1 : ℚ), 2, 3])[0]? = some (-1 : ℚ) ∧
    (classify_batch ["salary deposit", "uber trip"] [(-1 : ℚ), 2, 3]).length = min 2 3 ∧
    (classify_batch ["salary deposit", "uber trip"] [(-1 : ℚ), 2, 3])[0]?
      = some (classify "salary deposit" (-1)) :=
  ⟨rfl, rfl, (classify_batch_zip_spec _ _).1,
    (classify_batch_zip_spec _ _).2 0 _ _ rfl rfl⟩

/-! ## Amount parsing and cleaning (`clean_csv_data`, `src/utils.py`)

`pandas.to_numeric(..., errors="coerce")` is an external library call; it is
modelled on plain decimal literals (optional sign, digits, optional fractional
part), the shape of every amount the program's cleaning step can produce from
currency-formatted cells. Values are exact rationals. -/

def digitVal (c : Char) : Nat := c.toNat - 48

def natOfDigits (cs : List Char) : Nat :=
  cs.foldl (fun n c => 10 * n + digitVal c) 0

/-- Parse an unsigned decimal literal: `123`, `123.45`, `123.`, `.45`. -/
def parseUnsigned (cs : List Char) : Option ℚ :=
  let ip := cs.takeWhile Char.isDigit
  let rest := cs.dropWhile Char.isDigit
  match rest with
  | [] => if ip.isEmpty then none else some ((natOfDigits ip : ℚ))
  | '.' :: fp =>
    if fp.all Char.isDigit && !(ip.isEmpty && fp.isEmpty) then
      some ((natOfDigits ip : ℚ) + (natOfDigits fp : ℚ) / (10 : ℚ) ^ fp.length)
    else none
  | _ => none

/-- Model of `pandas.to_numeric(value, errors="coerce")` on a string cell:
`none` models NaN (the coerced failure marker). -/
def parseAmount (s : String) : Option ℚ :=
  match s.data with
  | '-' :: rest => (parseUnsigned rest).map (fun q => -q)
  | '+' :: rest => parseUnsigned rest
  | cs => parseUnsigned cs

/-- The amount-string cleaning of `clean_csv_data` line 54:
`.str.replace("$","").str.replace(",","").str.strip()` — remove every `$`
and every `,`, then trim. -/
def cleanAmountStr (s : String) : String :=
  trimStr (String.mk ((s.data.filter (fun c => c != '$')).filter (fun c => c != ',')))

/-- The claim's wording of the same cleaning: strip only a LEADING `$`,
remove every `,`, then trim. Compared against `cleanAmountStr`. -/
def claimedCleanAmountStr (s : String) : String :=
  let cs := match s.data with
    | '$' :: rest => rest
    | l => l
  trimStr (String.mk (cs.filter (fun c => c != ',')))

/-- The description cleaning of `clean_csv_data` lines 45-46: stringify,
trim, then replace `"nan"`, `"None"` and the empty string by `"Unknown"`. -/
def cleanDesc (s : String) : String :=
  if trimStr s = "nan" ∨ trimStr s = "None" ∨ trimStr s = "" then "Unknown"
  else trimStr s

/-! ## The cleaning pipeline -/

/-- A row of the column-reduced raw table (`df_clean[required_cols]`):
the pandas index plus the three canonical cells, all still strings. -/
structure RawRow where
  idx : Nat
  date : String
  description : String
  amount : String
deriving DecidableEq, Repr

/-- A working row after description/amount cleaning, amount parsed. -/
structure RowB where
  idx : Nat
  dateRaw : String
  description : String
  amount : ℚ
deriving DecidableEq, Repr

/-- A working row after date parsing. -/
structure RowC where
  idx : Nat
  date : Nat
  description : String
  amount : ℚ
deriving DecidableEq, Repr

/-- A row of the final cleaned table (after `reset_index(drop=True)`, the
position in the list is the fresh contiguous index). -/
structure CleanRow where
  date : Nat
  description : String
  amount : ℚ
deriving DecidableEq, Repr

/-- The `date` field of a removed-row record: either the literal `"Invalid"`
marker or the original raw string. -/
inductive RemDate where
  | invalid
  | raw (s : String)
deriving DecidableEq, Repr

/-- The `amount` field of a removed-row record: either the literal
`"Invalid"` marker or the cleaned numeric amount. -/
inductive RemAmount where
  | invalid
  | num (q : ℚ)
deriving DecidableEq, Repr

/-- One entry of the `removed_rows` list built by `clean_csv_data`. -/
structure RemovedRow where
  index : Nat
  date : RemDate
  description : String
  amount : RemAmount
  reason : String
deriving DecidableEq, Repr

/-- Amount-stage success: lines 54-58 on one row — clean the description and
the amount string, keep the row when the amount parses. -/
def fAmount (r : RawRow) : Option RowB :=
  (parseAmount (cleanAmountStr r.amount)).map
    (fun q => { idx := r.idx, dateRaw := r.date,
                description := cleanDesc r.description, amount := q })

/-- Rows dropped at the amount stage, as recorded in `removed_rows`
(lines 61-69): original index, original unparsed date, cleaned description,
literal `"Invalid"` amount marker. -/
def amountRemoved (rows : List RawRow) : List RemovedRow :=
  (rows.filter (fun r => (parseAmount (cleanAmountStr r.amount)).isNone)).map
    (fun r => { index := r.idx, date := RemDate.raw r.date,
                description := cleanDesc r.description,
                amount := RemAmount.invalid,
                reason := "Invalid amount (could not convert to number)" })

/-- The working set surviving the amount stage (`dropna(subset=["amount"])`). -/
def amountKept (rows : List RawRow) : List RowB :=
  rows.filterMap fAmount

/-- Date-stage success on one surviving row, for a given date parser `dp`
(the `pd.to_datetime(..., errors="coerce")` library call, abstracted as any
partial parser into an ordered timestamp). -/
def fDate (dp : String → Option Nat) (r : RowB) : Option RowC :=
  (dp r.dateRaw).map
    (fun t => { idx := r.idx, date := t, description := r.description,
                amount := r.amount })

/-- Rows dropped at the date stage (lines 78-86): literal `"Invalid"` date
marker, cleaned description, cleaned numeric amount. -/
def dateRemoved (dp : String → Option Nat) (rows : List RowB) : List RemovedRow :=
  (rows.filter (fun r => (dp r.dateRaw).isNone)).map
    (fun r => { index := r.idx, date := RemDate.invalid,
                description := r.description,
                amount := RemAmount.num r.amount,
                reason := "Invalid date (could not parse)" })

/-- The working set surviving the date stage (`dropna(subset=["date"])`). -/
def dateKept (dp : String → Option Nat) (rows : List RowB) : List RowC :=
  rows.filterMap (fDate dp)

/-- Comparison used by `sort_values("date")`. -/
def rowLe (a b : RowC) : Prop := a.date ≤ b.date

instance : DecidableRel rowLe := fun a b => Nat.decLe a.date b.date

instance : IsTotal RowC rowLe := ⟨fun a b => Nat.le_total a.date b.date⟩

instance : IsTrans RowC rowLe := ⟨fun _ _ _ h1 h2 => Nat.le_trans h1 h2⟩

/-- `clean_csv_data` of `src/utils.py` on the column-reduced table:
returns the cleaned, date-sorted, re-indexed table together with the
removed-row records (amount failures first, then date failures, matching
the order the code appends them). `sort_values("date")` is modelled by a
deterministic comparison sort on the date key; the claims do not depend on
the order of date ties. -/
def clean_csv_data (dp : String → Option Nat) (rows : List RawRow) :
    List CleanRow × List RemovedRow :=
  let kept := dateKept dp (amountKept rows)
  let sorted := List.insertionSort rowLe kept
  (sorted.map (fun r => { date := r.date, description := r.description,
                          amount := r.amount }),
   amountRemoved rows ++ dateRemoved dp (amountKept rows))

/-! ## Partition lemmas: every row is kept or removed, never both -/

/-- Splitting a list by an `Option`-valued step: the kept images and the
failed originals together are a permutation of the originals (projected
through an index function respected by the step). -/
theorem filterMap_partition_perm {α β : Type} (f : α → Option β)
    (i : α → Nat) (j : β → Nat) (hj : ∀ a b, f a = some b → j b = i a)
    (l : List α) :
    ((l.filterMap f).map j
      ++ (l.filter (fun a => (f a).isNone)).map i).Perm (l.map i) := by
  induction l with
  | nil => simp
  | cons a l ih =>
    cases hfa : f a with
    | none =>
      rw [List.filterMap_cons_none hfa,
        List.filter_cons_of_pos (by simp [hfa]), List.map_cons, List.map_cons]
      exact List.perm_middle.trans (ih.cons (i a))
    | some b =>
      rw [List.filterMap_cons_some hfa,
        List.filter_cons_of_neg (by simp [hfa]), List.map_cons,
        List.cons_append, hj a b hfa, List.map_cons]
      exact ih.cons (i a)

theorem fAmount_idx (a : RawRow) (b : RowB) (h : fAmount a = some b) :
    b.idx = a.idx := by
  rw [fAmount, Option.map_eq_some'] at h
  obtain ⟨q, _, hb⟩ := h
  rw [← hb]

theorem fDate_idx (dp : String → Option Nat) (a : RowB) (b : RowC)
    (h : fDate dp a = some b) : b.idx = a.idx := by
  rw [fDate, Option.map_eq_some'] at h
  obtain ⟨t, _, hb⟩ := h
  rw [← hb]

theorem isNone_fAmount (r : RawRow) :
    (fAmount r).isNone = (parseAmount (cleanAmountStr r.amount)).isNone := by
  rw [fAmount]
  cases parseAmount (cleanAmountStr r.amount) <;> rfl

theorem isNone_fDate (dp : String → Option Nat) (r : RowB) :
    (fDate dp r).isNone = (dp r.dateRaw).isNone := by
  rw [fDate]
  cases dp r.dateRaw <;> rfl

/-- Stage 1 partition: kept row indices plus amount-removed record indices
are a permutation of the input indices. -/
theorem amount_stage_perm (rows : List RawRow) :
    ((amountKept rows).map RowB.idx
      ++ (amountRemoved rows).map RemovedRow.index).Perm
      (rows.map RawRow.idx) := by
  have hfun : (fun a : RawRow => (fAmount a).isNone)
      = (fun r : RawRow => (parseAmount (cleanAmountStr r.amount)).isNone) := by
    funext r
    rw [isNone_fAmount]
  have hrem : (amountRemoved rows).map RemovedRow.index
      = (rows.filter (fun a => (fAmount a).isNone)).map RawRow.idx := by
    rw [amountRemoved, List.map_map, hfun]
    rfl
  rw [amountKept, hrem]
  exact filterMap_partition_perm fAmount RawRow.idx RowB.idx fAmount_idx rows

/-- Stage 2 partition: surviving row indices plus date-removed record
indices are a permutation of the stage-1 survivors' indices. -/
theorem date_stage_perm (dp : String → Option Nat) (rows : List RowB) :
    ((dateKept dp rows).map RowC.idx
      ++ (dateRemoved dp rows).map RemovedRow.index).Perm
      (rows.map RowB.idx) := by
  have hfun : (fun a : RowB => (fDate dp a).isNone)
      = (fun r : RowB => (dp r.dateRaw).isNone) := by
    funext r
    rw [isNone_fDate]
  have hrem : (dateRemoved dp rows).map RemovedRow.index
      = (rows.filter (fun a => (fDate dp a).isNone)).map RowB.idx := by
    rw [dateRemoved, List.map_map, hfun]
    rfl
  rw [dateKept, hrem]
  exact filterMap_partition_perm (fDate dp) RowB.idx RowC.idx (fDate_idx dp) rows

/-- C1: every row of the column-reduced table is accounted for in exactly
one of the two outputs of `clean_csv_data`: the cleaned-row count plus the
removed-record count equals the input row count, and the kept indices
together with the removed-record indices are a permutation of the input
indices (each input row lands in exactly one side, none twice). -/
theorem clean_csv_data_accounts_all_rows (dp : String → Option Nat)
    (rows : List RawRow) :
    (clean_csv_data dp rows).1.length + (clean_csv_data dp rows).2.length
        = rows.length ∧
    ((dateKept dp (amountKept rows)).map RowC.idx
      ++ (clean_csv_data dp rows).2.map RemovedRow.index).Perm
      (rows.map RawRow.idx) := by
  have hperm : ((dateKept dp (amountKept rows)).map RowC.idx
      ++ (clean_csv_data dp rows).2.map RemovedRow.index).Perm
      (rows.map RawRow.idx) := by
    simp only [clean_csv_data, List.map_append]
    refine List.Perm.trans ?_ (amount_stage_perm rows)
    refine List.Perm.trans
      (List.Perm.append_left _ (List.perm_append_comm)) ?_
    rw [← List.append_assoc]
    exact List.Perm.append_right _ (date_stage_perm dp (amountKept rows))
  refine ⟨?_, hperm⟩
  have hlen := hperm.length_eq
  have hsort : (clean_csv_data dp rows).1.length
      = (dateKept dp (amountKept rows)).length := by
    simp only [clean_csv_data, List.length_map]
    exact (List.perm_insertionSort rowLe _).length_eq
  simp only [List.length_append, List.length_map] at hlen hsort ⊢
  omega

/-! ## Validity of the cleaned table -/

theorem cleanDesc_ne_empty (s : String) : cleanDesc s ≠ "" := by
  rw [cleanDesc]
  split
  · decide
  · next h =>
    push_neg at h
    exact h.2.2

/-- C2: every row of the cleaned table has a successfully parsed date, a
numeric amount obtained by the amount-cleaning parse, and a non-empty
description, and the table is sorted ascending by date (its index is the
list position, contiguous by construction after `reset_index`). -/
theorem clean_csv_data_output_valid_sorted (dp : String → Option Nat)
    (rows : List RawRow) :
    List.Sorted (fun a b : CleanRow => a.date ≤ b.date)
      (clean_csv_data dp rows).1 ∧
    ∀ c ∈ (clean_csv_data dp rows).1,
      c.description ≠ "" ∧
      ∃ src ∈ rows, dp src.date = some c.date ∧
        parseAmount (cleanAmountStr src.amount) = some c.amount ∧
        cleanDesc src.description = c.description := by
  constructor
  · have hs : List.Sorted rowLe
        (List.insertionSort rowLe (dateKept dp (amountKept rows))) :=
      List.sorted_insertionSort rowLe _
    simp only [clean_csv_data]
    exact List.Pairwise.map _ (fun a b hab => hab) hs
  · intro c hc
    simp only [clean_csv_data, List.mem_map] at hc
    obtain ⟨x, hxs, hxc⟩ := hc
    have hxk : x ∈ dateKept dp (amountKept rows) :=
      (List.perm_insertionSort rowLe _).mem_iff.mp hxs
    rw [dateKept, List.mem_filterMap] at hxk
    obtain ⟨b, hbA, hfd⟩ := hxk
    rw [fDate, Option.map_eq_some'] at hfd
    obtain ⟨t, hdp, hxb⟩ := hfd
    rw [amountKept, List.mem_filterMap] at hbA
    obtain ⟨src, hsrc, hfa⟩ := hbA
    rw [fAmount, Option.map_eq_some'] at hfa
    obtain ⟨q, hq, hbq⟩ := hfa
    subst hxc
    subst hxb
    subst hbq
    refine ⟨cleanDesc_ne_empty _, src, hsrc, hdp, hq, rfl⟩

theorem clean_csv_data_output_valid_sorted_witness :
    ({ date := 3, description := "Store", amount := 1200 } : CleanRow)
      ∈ (clean_csv_data (fun s => if s = "2024-01-03" then some 3 else none)
          [{ idx := 0, date := "2024-01-03", description := " Store ",
             amount := "$1,200" }]).1 ∧
    (({ date := 3, description := "Store", amount := 1200 } : CleanRow).description ≠ "" ∧
      ∃ src ∈ [({ idx := 0, date := "2024-01-03", description := " Store ",
                  amount := "$1,200" } : RawRow)],
        (fun s => if s = "2024-01-03" then some 3 else none) src.date
            = some ({ date := 3, description := "Store", amount := 1200 } : CleanRow).date ∧
        parseAmount (cleanAmountStr src.amount)
            = some ({ date := 3, description := "Store", amount := 1200 } : CleanRow).amount ∧
        cleanDesc src.description
            = ({ date := 3, description := "Store", amount := 1200 } : CleanRow).description) :=
  have hc : ({ date := 3, description := "Store", amount := 1200 } : CleanRow)
      ∈ (clean_csv_data (fun s => if s = "2024-01-03" then some 3 else none)
          [{ idx := 0, date := "2024-01-03", description := " Store ",
             amount := "$1,200" }]).1 := by decide
  ⟨hc, (clean_csv_data_output_valid_sorted _ _).2 _ hc⟩

/-! ## Amount cleaning: all `$` characters are stripped, not only a leading one -/

/-- C3 counterexample: on the amount cell `"1$2"` the code's cleaning
(remove every `$`) parses the value `12`, while the claimed cleaning
(strip only a leading `$`) fails to parse — so the claim's description of
the cleaning step is false of the code. -/
theorem amount_cleaning_leading_dollar_cx :
    ¬ (parseAmount (cleanAmountStr "1$2")
        = parseAmount (claimedCleanAmountStr "1$2")) := by
  decide

/-- C3 amended: amount cleaning stringifies the cell, strips ALL `$`
characters and all `,` separators, trims, then parses a decimal number
(so `"$1,234.56"` yields `1234.56`); every cell that fails to parse yields
a removed-row record with exactly the original index, the original
unparsed date, the cleaned description, the literal `"Invalid"` amount
marker and reason `"Invalid amount (could not convert to number)"`. -/
theorem amount_invalid_removal_record (dp : String → Option Nat)
    (rows : List RawRow) (r : RawRow) (hr : r ∈ rows)
    (hfail : parseAmount (cleanAmountStr r.amount) = none) :
    ({ index := r.idx, date := RemDate.raw r.date,
       description := cleanDesc r.description, amount := RemAmount.invalid,
       reason := "Invalid amount (could not convert to number)" } : RemovedRow)
      ∈ (clean_csv_data dp rows).2 ∧
    parseAmount (cleanAmountStr "$1,234.56") = some (123456 / 100 : ℚ) := by
  constructor
  · simp only [clean_csv_data]
    apply List.mem_append_left
    rw [amountRemoved]
    exact List.mem_map.mpr
      ⟨r, List.mem_filter.mpr ⟨hr, by simp [hfail]⟩, rfl⟩
  · show some ((1234 : ℚ) + (56 : ℚ) / (10 : ℚ) ^ 2) = some (123456 / 100 : ℚ)
    norm_num

theorem amount_invalid_removal_record_witness :
    ({ idx := 7, date := "2024-01-05", description := " Coffee ",
       amount := "abc" } : RawRow)
      ∈ [({ idx := 7, date := "2024-01-05", description := " Coffee ",
            amount := "abc" } : RawRow)] ∧
    parseAmount (cleanAmountStr "abc") = none ∧
    (({ index := 7, date := RemDate.raw "2024-01-05",
        description := cleanDesc " Coffee ", amount := RemAmount.invalid,
        reason := "Invalid amount (could not convert to number)" } : RemovedRow)
        ∈ (clean_csv_data (fun _ => none)
            [{ idx := 7, date := "2024-01-05", description := " Coffee ",
               amount := "abc" }]).2 ∧
      parseAmount (cleanAmountStr "$1,234.56") = some (123456 / 100 : ℚ)) :=
  ⟨by decide, by decide,
    amount_invalid_removal_record (fun _ => none)
      [{ idx := 7, date := "2024-01-05", description := " Coffee ",
         amount := "abc" }]
      { idx := 7, date := "2024-01-05", description := " Coffee ",
        amount := "abc" }
      (by decide) (by decide)⟩

/-! ## Header detection (`detect_header_row`, `src/utils.py`) -/

/-- The three keywords a header row must contain. -/
def requiredKeywords : List String := ["date", "description", "amount"]

/-- Number of required keywords appearing (case-insensitively, after
trimming) as a substring of some cell of the row — the `matches` counter of
`detect_header_row`. -/
def rowMatchCount (row : List String) : Nat :=
  requiredKeywords.countP
    (fun k => row.any (fun cell => hasSub k.data (trimStr (toLowerStr cell)).data))

/-- A row is a header row when all three keywords matched. -/
def rowMatches (row : List String) : Bool := rowMatchCount row == 3

/-- The scanning loop of `detect_header_row`, carrying the current index. -/
def detectAux : Nat → List (List String) → Nat
  | _, [] => 0
  | i, r :: rs => if rowMatches r then i else detectAux (i + 1) rs

/-- `detect_header_row` of `src/utils.py`: scan the first 20 parsed CSV
rows, return the index of the first row containing all three keywords,
else 0. -/
def detect_header_row (rows : List (List String)) : Nat :=
  detectAux 0 (rows.take 20)

/-- The spec's worked example: six preamble rows, the header at index 6. -/
def headerExample : List (List String) :=
  [["Example Bank"],
   ["Statement Period: January"],
   ["Account Number: 0000"],
   [""],
   ["Generated 2024-02-01"],
   [""],
   ["Date", "Description", "Amount", "Balance"],
   ["2024-01-01", "Coffee", "-4.50", "995.50"]]

theorem detectAux_first (l : List (List String)) (b i : Nat)
    (hi : i < l.length) (hm : rowMatches (l.getD i []) = true)
    (hfirst : ∀ j < i, rowMatches (l.getD j []) = false) :
    detectAux b l = b + i := by
  induction l generalizing b i with
  | nil => exact absurd hi (Nat.not_lt_zero i)
  | cons r rs ih =>
    cases i with
    | zero =>
      rw [List.getD_cons_zero] at hm
      rw [detectAux, if_pos hm, Nat.add_zero]
    | succ k =>
      have h0 : rowMatches r = false := by
        have := hfirst 0 (Nat.succ_pos k)
        rwa [List.getD_cons_zero] at this
      rw [detectAux, if_neg (by simp [h0])]
      rw [List.getD_cons_succ] at hm
      have := ih (b + 1) k (Nat.lt_of_succ_lt_succ hi) hm
        (fun j hj => by
          have := hfirst (j + 1) (Nat.succ_lt_succ hj)
          rwa [List.getD_cons_succ] at this)
      omega

theorem detectAux_none (l : List (List String)) (b : Nat)
    (h : ∀ r ∈ l, rowMatches r = false) : detectAux b l = 0 := by
  induction l generalizing b with
  | nil => rfl
  | cons r rs ih =>
    rw [detectAux, if_neg (by simp [h r (List.mem_cons_self r rs)])]
    exact ih (b + 1) (fun x hx => h x (List.mem_cons_of_mem r hx))

/-- C6: `detect_header_row` returns the index of the first of the ≤ 20
scanned rows in which all of `date`, `description`, `amount` occur
case-insensitively as substrings of some cell; it returns 0 when no
scanned row qualifies; and it returns 6 on the spec's worked example. -/
theorem detect_header_row_first_all_keywords (rows : List (List String)) (i : Nat) :
    (i < (rows.take 20).length →
      rowMatches ((rows.take 20).getD i []) = true →
      (∀ j < i, rowMatches ((rows.take 20).getD j []) = false) →
      detect_header_row rows = i) ∧
    ((∀ r ∈ rows.take 20, rowMatches r = false) → detect_header_row rows = 0) ∧
    detect_header_row headerExample = 6 := by
  refine ⟨fun hi hm hfirst => ?_, fun hnone => ?_, by decide⟩
  · rw [detect_header_row]
    have := detectAux_first (rows.take 20) 0 i hi hm hfirst
    omega
  · rw [detect_header_row]
    exact detectAux_none _ 0 hnone

theorem detect_header_row_first_all_keywords_witness :
    (6 : Nat) < (headerExample.take 20).length ∧
    rowMatches ((headerExample.take 20).getD 6 []) = true ∧
    (∀ j < 6, rowMatches ((headerExample.take 20).getD j []) = false) ∧
    detect_header_row headerExample = 6 :=
  ⟨by decide, by decide, by decide,
    (detect_header_row_first_all_keywords headerExample 6).1
      (by decide) (by decide) (by decide)⟩

/-! ## Merchant extraction (`extract_merchant_name`, `src/utils.py`) -/

/-- The fixed ordered prefix list `prefixes_to_remove`. -/
def prefixes_to_remove : List String :=
  ["DEBIT CARD PURCHASE - ",
   "PURCHASE AUTHORIZED ON ",
   "CARD PURCHASE - ",
   "PAYMENT TO ",
   "TRANSFER TO ",
   "TRANSFER FROM "]

/-- The `for prefix in prefixes_to_remove` loop (NO break: each list entry
is tested in order against the current string, so several can strip). -/
def stripSeq (cs : List Char) (ps : List String) : List Char :=
  ps.foldl (fun s p => if isPre p.data s then s.drop p.length else s) cs

/-- One conditional strip step, used to state the sequential unfolding. -/
def stripOnce (p : String) (cs : List Char) : List Char :=
  if isPre p.data cs then cs.drop p.length else cs

/-- The tail of `extract_merchant_name`: `description[:50].strip()` and the
`"Unknown"` fallback for an empty result. -/
def finishMerchant (cs : List Char) : String :=
  if (trimL (cs.take 50)).isEmpty then "Unknown"
  else String.mk (trimL (cs.take 50))

/-- `extract_merchant_name` of `src/utils.py`: upper-case, trim, run the
prefix-stripping loop, truncate to 50 characters, trim, default
`"Unknown"`. -/
def extract_merchant_name (description : String) : String :=
  finishMerchant
    (stripSeq (trimL (description.data.map Char.toUpper)) prefixes_to_remove)

/-- The claim's version of the prefix handling: stop at the FIRST matching
prefix and strip only that one. Compared against `extract_merchant_name`. -/
def claimedExtractMerchant (description : String) : String :=
  let d := trimL (description.data.map Char.toUpper)
  finishMerchant
    (match prefixes_to_remove.find? (fun p => isPre p.data d) with
     | some p => d.drop p.length
     | none => d)

theorem dropWhile_length_le {α : Type} (p : α → Bool) (l : List α) :
    (l.dropWhile p).length ≤ l.length := by
  induction l with
  | nil => exact Nat.le_refl 0
  | cons a l ih =>
    rw [List.dropWhile_cons]
    split
    · exact Nat.le_trans ih (Nat.le_succ _)
    · exact Nat.le_refl _

theorem trimL_length_le (cs : List Char) : (trimL cs).length ≤ cs.length := by
  rw [trimL]
  rw [List.length_reverse]
  refine Nat.le_trans (dropWhile_length_le _ _) ?_
  rw [List.length_reverse]
  exact dropWhile_length_le _ _

theorem finishMerchant_length_le (cs : List Char) :
    (finishMerchant cs).length ≤ 50 := by
  rw [finishMerchant]
  split
  · decide
  · rw [String.length_mk]
    exact Nat.le_trans (trimL_length_le _) (List.length_take_le _ _)

set_option maxHeartbeats 2000000 in
/-- C7 counterexample: on
`"DEBIT CARD PURCHASE - PAYMENT TO ALICE"` the code strips the first
prefix and then ALSO strips `"PAYMENT TO "` from the remainder (the loop
has no break), yielding `"ALICE"`, while the claimed stop-at-first-match
rule yields `"PAYMENT TO ALICE"`. -/
theorem extract_merchant_single_strip_cx :
    ¬ (extract_merchant_name "DEBIT CARD PURCHASE - PAYMENT TO ALICE"
        = claimedExtractMerchant "DEBIT CARD PURCHASE - PAYMENT TO ALICE") := by
  decide

set_option maxHeartbeats 2000000 in
/-- C7 amended: `extract_merchant_name` upper-cases and trims, then tests
each prefix of the fixed ordered list IN SEQUENCE against the current
string, stripping every one that matches (so a later prefix can be
stripped from the result of an earlier strip); it then truncates to the
first 50 characters, trims again, and returns `"Unknown"` for an empty
result. The result never exceeds 50 characters, and the spec's worked
example strips its prefix. -/
theorem extract_merchant_name_sequential (d : String) :
    extract_merchant_name d =
      finishMerchant
        (stripOnce "TRANSFER FROM " (stripOnce "TRANSFER TO "
          (stripOnce "PAYMENT TO " (stripOnce "CARD PURCHASE - "
            (stripOnce "PURCHASE AUTHORIZED ON "
              (stripOnce "DEBIT CARD PURCHASE - "
                (trimL (d.data.map Char.toUpper)))))))) ∧
    (extract_merchant_name d).length ≤ 50 ∧
    extract_merchant_name
        "DEBIT CARD PURCHASE - WALMART #123456789012345678901234567890"
      = "WALMART #123456789012345678901234567890" ∧
    extract_merchant_name "  " = "Unknown" := by
  refine ⟨rfl, finishMerchant_length_le _, by decide, by decide⟩

/-! ## Column-name normalization (`normalize_column_names`, `src/utils.py`) -/

/-- A pandas DataFrame abstracted to its ordered column names and its cell
rows; renaming columns never touches the rows. -/
structure Table where
  cols : List String
  rows : List (List String)
deriving DecidableEq, Repr

def date_variations : List String :=
  ["date", "posted date", "transaction date", "post date", "trans date",
   "posting date", "trans_date", "posted_date", "transaction_date"]

def description_variations : List String :=
  ["description", "desc", "merchant", "transaction description",
   "trans description", "details", "memo", "payee", "name",
   "transaction_description", "trans_description"]

def amount_variations : List String :=
  ["amount", "amt", "transaction amount", "trans amount", "value",
   "debit", "credit", "transaction_amount", "trans_amount"]

/-- One iteration of the mapping-construction loop of
`normalize_column_names`. The `"date" not in column_mapping` guard of the
Python code tests DICT KEYS, i.e. whether some earlier column was literally
named `"date"`; the model reproduces that by testing the first components
of the association list built so far. -/
def mapStep (m : List (String × String)) (col : String) : List (String × String) :=
  if date_variations.contains (trimStr (toLowerStr col))
      || strHasSub "date" (trimStr (toLowerStr col)) then
    if m.any (fun q => q.1 = "date") then m else m ++ [(col, "date")]
  else if description_variations.contains (trimStr (toLowerStr col))
      || strHasSub "description" (trimStr (toLowerStr col))
      || strHasSub "merchant" (trimStr (toLowerStr col)) then
    if m.any (fun q => q.1 = "description") then m else m ++ [(col, "description")]
  else if amount_variations.contains (trimStr (toLowerStr col))
      || strHasSub "amount" (trimStr (toLowerStr col)) then
    if m.any (fun q => q.1 = "amount") then m else m ++ [(col, "amount")]
  else m

/-- The `column_mapping` dict built over the columns, in order. -/
def buildColumnMapping (cols : List String) : List (String × String) :=
  cols.foldl mapStep []

/-- `normalize_column_names` of `src/utils.py`: rename every column that
the mapping covers; values are untouched. -/
def normalize_column_names (t : Table) : Table :=
  if (buildColumnMapping t.cols).isEmpty then t
  else
    { t with
      cols := t.cols.map (fun c =>
        (((buildColumnMapping t.cols).find? (fun q => q.1 = c)).map
          Prod.snd).getD c) }

/-- C8: on an already-canonical table (`["date", "description", "amount"]`)
`normalize_column_names` is a no-op — column names and all values are
unchanged — so running it twice equals running it once. -/
theorem normalize_column_names_canonical_noop (rows : List (List String)) :
    normalize_column_names
        { cols := ["date", "description", "amount"], rows := rows }
      = { cols := ["date", "description", "amount"], rows := rows } ∧
    normalize_column_names (normalize_column_names
        { cols := ["date", "description", "amount"], rows := rows })
      = normalize_column_names
          { cols := ["date", "description", "amount"], rows := rows } := by
  have h : normalize_column_names
      { cols := ["date", "description", "amount"], rows := rows }
    = { cols := ["date", "description", "amount"], rows := rows } := rfl
  exact ⟨h, by rw [h, h]⟩

/-! ## Derived columns (`add_derived_columns`, `src/utils.py`) -/

/-- `categorize_transaction_type` of `src/utils.py`: strictly positive
amounts are income, everything else (zero included) is expense. -/
def categorize_transaction_type (amount : ℚ) : String :=
  if 0 < amount then "Income" else "Expense"

/-- `get_absolute_amount` of `src/utils.py`. -/
def get_absolute_amount (amount : ℚ) : ℚ := |amount|

/-- A parsed calendar date as carried by the cleaned table at the
derived-column stage (`pd.Timestamp` restricted to its date fields). -/
structure Ymd where
  year : Nat
  month : Nat
  day : Nat
deriving DecidableEq, Repr

/-- A cleaned-table row as consumed by `add_derived_columns`. -/
structure CRow where
  date : Ymd
  description : String
  amount : ℚ
deriving DecidableEq, Repr

/-- Zero-pad to two digits (`%m` of `strftime`). -/
def pad2 (n : Nat) : String :=
  if n < 10 then "0" ++ toString n else toString n

/-- Zero-pad to four digits (`%Y` of `strftime`). -/
def pad4 (n : Nat) : String :=
  if n < 10 then "000" ++ toString n
  else if n < 100 then "00" ++ toString n
  else if n < 1000 then "0" ++ toString n
  else toString n

/-- `date.dt.strftime("%Y-%m")`. -/
def formatYM (d : Ymd) : String := pad4 d.year ++ "-" ++ pad2 d.month

/-- A row after `add_derived_columns`: all original fields plus the five
derived columns (`month` is the year-month period bucket). -/
structure ERow where
  date : Ymd
  description : String
  amount : ℚ
  transaction_type : String
  abs_amount : ℚ
  month : Nat × Nat
  year : Nat
  month_year : String
deriving DecidableEq, Repr

/-- `add_derived_columns` of `src/utils.py`. -/
def add_derived_columns (rows : List CRow) : List ERow :=
  rows.map (fun r =>
    { date := r.date, description := r.description, amount := r.amount,
      transaction_type := categorize_transaction_type r.amount,
      abs_amount := get_absolute_amount r.amount,
      month := (r.date.year, r.date.month),
      year := r.date.year,
      month_year := formatYM r.date })

/-- C9: `add_derived_columns` preserves the row count (also on the empty
table) and every pre-existing field of every row, adding only
`transaction_type` (`"Income"` iff amount > 0, zero giving `"Expense"`),
`abs_amount` (absolute value), and the `month`/`year`/`month_year` date
buckets. -/
theorem add_derived_columns_frame (rows : List CRow) :
    (add_derived_columns rows).length = rows.length ∧
    add_derived_columns ([] : List CRow) = [] ∧
    ∀ (i : Nat) (r : CRow) (e : ERow),
      rows[i]? = some r → (add_derived_columns rows)[i]? = some e →
      e.date = r.date ∧ e.description = r.description ∧ e.amount = r.amount ∧
      e.transaction_type = (if 0 < r.amount then "Income" else "Expense") ∧
      e.abs_amount = |r.amount| ∧ e.month = (r.date.year, r.date.month) ∧
      e.year = r.date.year ∧ e.month_year = formatYM r.date := by
  refine ⟨by simp [add_derived_columns], rfl, ?_⟩
  intro i r e hr he
  rw [add_derived_columns, List.getElem?_map, hr] at he
  have he2 := Option.some.inj he
  subst he2
  exact ⟨rfl, rfl, rfl, rfl, rfl, rfl, rfl, rfl⟩

theorem add_derived_columns_frame_witness :
    ([({ date := { year := 2024, month := 1, day := 15 },
         description := "COFFEE", amount := 0 } : CRow)])[0]?
      = some ({ date := { year := 2024, month := 1, day := 15 },
                description := "COFFEE", amount := 0 } : CRow) ∧
    (add_derived_columns
        [{ date := { year := 2024, month := 1, day := 15 },
           description := "COFFEE", amount := 0 }])[0]?
      = some ({ date := { year := 2024, month := 1, day := 15 },
                description := "COFFEE", amount := 0,
                transaction_type := "Expense", abs_amount := 0,
                month := (2024, 1), year := 2024,
                month_year := "2024-01" } : ERow) ∧
    (({ date := { year := 2024, month := 1, day := 15 },
        description := "COFFEE", amount := 0,
        transaction_type := "Expense", abs_amount := 0,
        month := (2024, 1), year := 2024,
        month_year := "2024-01" } : ERow).transaction_type
      = (if (0 : ℚ) < 0 then "Income" else "Expense")) :=
  ⟨rfl, by decide,
    ((add_derived_columns_frame
        [{ date := { year := 2024, month := 1, day := 15 },
           description := "COFFEE", amount := 0 }]).2.2 0
      { date := { year := 2024, month := 1, day := 15 },
        description := "COFFEE", amount := 0 }
      { date := { year := 2024, month := 1, day := 15 },
        description := "COFFEE", amount := 0,
        transaction_type := "Expense", abs_amount := 0,
        month := (2024, 1), year := 2024, month_year := "2024-01" }
      rfl (by decide)).2.2.2.1⟩
